import Mathlib

/-!
Verification development for the autonomous QA agent's retrieval pipeline.

The Python sources are shallowly embedded: pure helper functions become Lean
functions on `String` / `List Char`, the ChromaDB-backed vector store becomes
explicit state passing over a list of stored chunks, machine integers become
`Nat` with explicit `% 2 ^ 32` where the MD5 digest needs 32-bit wrap-around,
and fallible operations return `Option`.
-/

/-! ## Character classes used by `backend/utils/helpers.py`

`clean_text` runs `re.sub(r'\s+', ' ', text)`, then removes the control
characters `[\x00-\x08\x0b-\x0c\x0e-\x1f\x7f-\x9f]`, then calls `strip()`.
Python's `\s` on `str` patterns matches the Unicode whitespace class.
-/

/-- Unicode whitespace as matched by Python's regex class `\s` (and by
`str.isspace`, which `str.strip()` uses). -/
def isPySpace (c : Char) : Bool :=
  c = ' ' || c = '\t' || c = '\n' || c = '\r' ||
  c.toNat = 0x0b || c.toNat = 0x0c ||
  (0x1c ≤ c.toNat && c.toNat ≤ 0x1f) ||
  c.toNat = 0x85 || c.toNat = 0xa0 || c.toNat = 0x1680 ||
  (0x2000 ≤ c.toNat && c.toNat ≤ 0x200a) ||
  c.toNat = 0x2028 || c.toNat = 0x2029 || c.toNat = 0x202f ||
  c.toNat = 0x205f || c.toNat = 0x3000

/-- The control characters removed by `clean_text`'s second substitution:
`[\x00-\x08\x0b-\x0c\x0e-\x1f\x7f-\x9f]`. -/
def isRemovedCtrl (c : Char) : Bool :=
  c.toNat ≤ 0x08 ||
  (0x0b ≤ c.toNat && c.toNat ≤ 0x0c) ||
  (0x0e ≤ c.toNat && c.toNat ≤ 0x1f) ||
  (0x7f ≤ c.toNat && c.toNat ≤ 0x9f)

/-- One pass of `re.sub(r'\s+', ' ', ·)`: every maximal run of whitespace
characters is replaced by a single ASCII space.  The flag records whether the
previous character belonged to a whitespace run already emitted. -/
def collapseWs : Bool → List Char → List Char
  | _, [] => []
  | prevWs, c :: rest =>
    if isPySpace c then
      if prevWs then collapseWs true rest
      else ' ' :: collapseWs true rest
    else c :: collapseWs false rest

/-- The control-character removal pass of `clean_text`. -/
def removeCtrl (l : List Char) : List Char :=
  l.filter (fun c => !isRemovedCtrl c)

/-- Leading-whitespace removal, one half of Python `str.strip()`. -/
def ltrimWs (l : List Char) : List Char :=
  l.dropWhile isPySpace

/-- Trailing-whitespace removal, the other half of Python `str.strip()`. -/
def rtrimWs (l : List Char) : List Char :=
  (l.reverse.dropWhile isPySpace).reverse

/-- Python `str.strip()` on a list of characters. -/
def stripWs (l : List Char) : List Char :=
  rtrimWs (ltrimWs l)

/-- Embedding of `clean_text` from `backend/utils/helpers.py`: collapse
whitespace runs to single spaces, drop the control characters, strip. -/
def clean_text (s : String) : String :=
  ⟨stripWs (removeCtrl (collapseWs false s.data))⟩

/-- Embedding of `DocumentParser._parse_markdown` on the file's decoded
content (the file read itself is elided): the raw markdown text is passed
through `clean_text` and returned. -/
def parse_markdown (content : String) : String :=
  clean_text content

/-! ## MD5 and `generate_chunk_id`

`generate_chunk_id(text, index)` returns
`f"chunk_{index}_{hashlib.md5(text.encode()).hexdigest()[:8]}"`.
MD5 (RFC 1321) is embedded over `Nat` with explicit reduction mod `2 ^ 32`.
-/

/-- Reduce to a 32-bit word. -/
def u32 (n : Nat) : Nat := n % 4294967296

/-- Bitwise NOT on a 32-bit word. -/
def not32 (n : Nat) : Nat := 4294967295 - n

/-- Left-rotate a 32-bit word by `s` bits (`0 < s < 32`). -/
def rotl32 (x s : Nat) : Nat :=
  u32 (x * 2 ^ s) + x / 2 ^ (32 - s)

/-- The 64 MD5 sine-derived constants `K[i] = ⌊2^32 · |sin(i+1)|⌋`. -/
def md5K : List Nat :=
  [0xd76aa478, 0xe8c7b756, 0x242070db, 0xc1bdceee,
   0xf57c0faf, 0x4787c62a, 0xa8304613, 0xfd469501,
   0x698098d8, 0x8b44f7af, 0xffff5bb1, 0x895cd7be,
   0x6b901122, 0xfd987193, 0xa679438e, 0x49b40821,
   0xf61e2562, 0xc040b340, 0x265e5a51, 0xe9b6c7aa,
   0xd62f105d, 0x02441453, 0xd8a1e681, 0xe7d3fbc8,
   0x21e1cde6, 0xc33707d6, 0xf4d50d87, 0x455a14ed,
   0xa9e3e905, 0xfcefa3f8, 0x676f02d9, 0x8d2a4c8a,
   0xfffa3942, 0x8771f681, 0x6d9d6122, 0xfde5380c,
   0xa4beea44, 0x4bdecfa9, 0xf6bb4b60, 0xbebfbc70,
   0x289b7ec6, 0xeaa127fa, 0xd4ef3085, 0x04881d05,
   0xd9d4d039, 0xe6db99e5, 0x1fa27cf8, 0xc4ac5665,
   0xf4292244, 0x432aff97, 0xab9423a7, 0xfc93a039,
   0x655b59c3, 0x8f0ccc92, 0xffeff47d, 0x85845dd1,
   0x6fa87e4f, 0xfe2ce6e0, 0xa3014314, 0x4e0811a1,
   0xf7537e82, 0xbd3af235, 0x2ad7d2bb, 0xeb86d391]

/-- The 64 MD5 per-round left-rotation amounts. -/
def md5S : List Nat :=
  [7, 12, 17, 22, 7, 12, 17, 22, 7, 12, 17, 22, 7, 12, 17, 22,
   5, 9, 14, 20, 5, 9, 14, 20, 5, 9, 14, 20, 5, 9, 14, 20,
   4, 11, 16, 23, 4, 11, 16, 23, 4, 11, 16, 23, 4, 11, 16, 23,
   6, 10, 15, 21, 6, 10, 15, 21, 6, 10, 15, 21, 6, 10, 15, 21]

/-- MD5 running state: four 32-bit words. -/
structure MD5State where
  a : Nat
  b : Nat
  c : Nat
  d : Nat
deriving Repr, DecidableEq

/-- MD5 round function selected by the round index. -/
def md5Mix (i b c d : Nat) : Nat :=
  if i < 16 then (b &&& c) ||| (not32 b &&& d)
  else if i < 32 then (b &&& d) ||| (c &&& not32 d)
  else if i < 48 then b ^^^ c ^^^ d
  else c ^^^ (b ||| not32 d)

/-- Message-word index used by round `i`. -/
def md5MsgIdx (i : Nat) : Nat :=
  if i < 16 then i
  else if i < 32 then (5 * i + 1) % 16
  else if i < 48 then (3 * i + 5) % 16
  else (7 * i) % 16

/-- One of the 64 MD5 operations for a block with message words `M`. -/
def md5Op (M : List Nat) (st : MD5State) (i : Nat) : MD5State :=
  let f := md5Mix i st.b st.c st.d
  let tmp := u32 (st.a + f + md5K.getD i 0 + M.getD (md5MsgIdx i) 0)
  { a := st.d, b := u32 (st.b + rotl32 tmp (md5S.getD i 0)), c := st.b, d := st.c }

/-- Process one 64-byte block (given as 16 little-endian 32-bit words). -/
def md5Block (st : MD5State) (M : List Nat) : MD5State :=
  let r := (List.range 64).foldl (md5Op M) st
  { a := u32 (st.a + r.a), b := u32 (st.b + r.b),
    c := u32 (st.c + r.c), d := u32 (st.d + r.d) }

/-- Little-endian byte decomposition of `n` into `len` bytes. -/
def toBytesLE (n len : Nat) : List Nat :=
  (List.range len).map (fun i => n / 256 ^ i % 256)

/-- MD5 padding: `0x80`, zeros to 56 mod 64, then the bit length as a
little-endian 64-bit integer. -/
def md5Pad (msg : List Nat) : List Nat :=
  let z := (119 - msg.length % 64) % 64
  msg ++ [0x80] ++ List.replicate z 0 ++ toBytesLE (msg.length * 8 % 2 ^ 64) 8

/-- Group a padded byte sequence into 16 little-endian words per 64-byte
block. -/
def md5Words (block : List Nat) : List Nat :=
  (List.range 16).map (fun i =>
    block.getD (4 * i) 0 + 256 * block.getD (4 * i + 1) 0 +
    65536 * block.getD (4 * i + 2) 0 + 16777216 * block.getD (4 * i + 3) 0)

/-- The MD5 digest state of a byte sequence. -/
def md5 (msg : List Nat) : MD5State :=
  let padded := md5Pad msg
  let blocks := (List.range (padded.length / 64)).map
    (fun i => (padded.drop (64 * i)).take 64)
  blocks.foldl (fun st blk => md5Block st (md5Words blk))
    { a := 0x67452301, b := 0xefcdab89, c := 0x98badcfe, d := 0x10325476 }

/-- Lowercase hexadecimal digit. -/
def hexDigit (n : Nat) : Char :=
  if n < 10 then Char.ofNat (48 + n) else Char.ofNat (87 + n)

/-- Two lowercase hex digits of a byte. -/
def byteHex (n : Nat) : List Char :=
  [hexDigit (n / 16 % 16), hexDigit (n % 16)]

/-- The 32-character lowercase hex digest of a byte sequence, as produced by
`hashlib.md5(...).hexdigest()`. -/
def md5Hex (msg : List Nat) : String :=
  let st := md5 msg
  ⟨(toBytesLE st.a 4 ++ toBytesLE st.b 4 ++ toBytesLE st.c 4 ++
    toBytesLE st.d 4).flatMap byteHex⟩

/-- UTF-8 encoding of one character (Python `str.encode()` is UTF-8). -/
def utf8Bytes (c : Char) : List Nat :=
  let n := c.toNat
  if n < 0x80 then [n]
  else if n < 0x800 then [0xc0 + n / 64, 0x80 + n % 64]
  else if n < 0x10000 then
    [0xe0 + n / 4096, 0x80 + n / 64 % 64, 0x80 + n % 64]
  else
    [0xf0 + n / 262144, 0x80 + n / 4096 % 64, 0x80 + n / 64 % 64,
     0x80 + n % 64]

/-- Python `text.encode()`: the UTF-8 bytes of a string. -/
def strBytes (s : String) : List Nat :=
  s.data.flatMap utf8Bytes

/-- Embedding of `generate_chunk_id` from `backend/utils/helpers.py`:
`f"chunk_{index}_{hashlib.md5(text.encode()).hexdigest()[:8]}"`. -/
def generate_chunk_id (text : String) (index : Nat) : String :=
  "chunk_" ++ toString index ++ "_" ++ (md5Hex (strBytes text)).take 8

/-! ## Other small helpers from `backend/utils/helpers.py` -/

/-- Embedding of `generate_test_id`: `f"TC-{index:03d}"`, zero-padded to
three digits. -/
def generate_test_id (index : Nat) : String :=
  "TC-" ++
    (if index < 10 then "00" else if index < 100 then "0" else "") ++
    toString index

/-- Python `sep.join(l)`. -/
def pyJoin (sep : String) (l : List String) : String :=
  match l with
  | [] => ""
  | x :: xs => xs.foldl (fun acc s => acc ++ sep ++ s) x

/-! ## The vector store (`backend/services/vector_store.py`)

A ChromaDB collection is embedded as an explicit list of stored chunks in
insertion order.  The ChromaDB backend itself is an external dependency;
its `collection.add` is modelled with the upsert-by-ID semantics the spec
states for re-ingestion, its `collection.get(limit=10000)` returns the first
10000 stored items, and `collection.count()` returns the exact count.
-/

/-- A chunk as stored by `add_documents`: the generated ID, the chunk text,
and the metadata produced by `create_metadata_dict`. -/
structure StoredChunk where
  id : String
  text : String
  source_document : String
  chunk_index : Nat
  total_chunks : Nat
deriving Repr, DecidableEq, Inhabited

/-- The chunk-preparation loop of `add_documents` for one document: every
chunk produced by the text splitter is paired with
`generate_chunk_id(chunk, i)` and source-tracking metadata. -/
def prepareDoc (filename : String) (chunks : List String) : List StoredChunk :=
  chunks.enum.map (fun p =>
    { id := generate_chunk_id p.2 p.1
      text := p.2
      source_document := filename
      chunk_index := p.1
      total_chunks := chunks.length })

/-- The full chunk-preparation loop of `add_documents` over a batch of
`(filename, content)` documents, parameterized by the (pure, deterministic)
text splitter; documents with empty content are skipped. -/
def prepareDocuments (docs : List (String × String))
    (split : String → List String) : List StoredChunk :=
  docs.flatMap (fun d => if d.2 = "" then [] else prepareDoc d.1 (split d.2))

/-- Modelled from the spec: the external ChromaDB `collection.add` for a
single ID.  The spec fixes upsert semantics ("duplicate entries with equal
IDs (upsert semantics), not two distinct chunks"): an existing entry with
the same ID is replaced in place, otherwise the entry is appended. -/
def upsertChunk (store : List StoredChunk) (c : StoredChunk) :
    List StoredChunk :=
  if store.any (fun e => e.id = c.id) then
    store.map (fun e => if e.id = c.id then c else e)
  else store ++ [c]

/-- Modelled from the spec: the external ChromaDB `collection.add` over a
prepared batch, upserting entry by entry. -/
def collectionAdd (store : List StoredChunk) (new : List StoredChunk) :
    List StoredChunk :=
  new.foldl upsertChunk store

/-- Embedding of `clear_collection`: the collection is deleted and
recreated empty. -/
def clear_collection (_store : List StoredChunk) : List StoredChunk := []

/-- The non-empty `source_document` metadata values of a list of stored
chunks, in order (the set-builder loop of `get_all_documents`). -/
def sourcesOf (l : List StoredChunk) : List String :=
  l.filterMap (fun e =>
    if e.source_document = "" then none else some e.source_document)

/-- A computation-friendly decision procedure for `≤` on strings (Python's
`sorted` order: lexicographic by code point), going through the list order
on the underlying characters so that concrete sorts reduce in the
kernel. -/
def decStrLe : DecidableRel (α := String) (· ≤ ·) := fun a b =>
  decidable_of_iff (¬ b.data < a.data)
    ⟨fun h hlt => h (String.lt_iff_toList_lt.mp hlt),
     fun h hlt => h (String.lt_iff_toList_lt.mpr hlt)⟩

/-- Sorting with Python's `sorted` order on strings (lexicographic by code
point). -/
def sortStrs (l : List String) : List String :=
  @List.insertionSort String (· ≤ ·) decStrLe l

/-- Embedding of `get_all_documents`: fetch at most 10000 stored items
(`collection.get(limit=10000)`), collect their non-empty `source_document`
values into a set, and return them sorted. -/
def get_all_documents (store : List StoredChunk) : List String :=
  sortStrs (sourcesOf (store.take 10000)).dedup

/-- The record returned by `get_stats`. -/
structure VectorStats where
  total_chunks : Nat
  total_documents : Nat
  collection_name : String
  documents : List String
deriving Repr, DecidableEq

/-- Embedding of `get_stats`: the full collection count plus the document
list from `get_all_documents`. -/
def get_stats (store : List StoredChunk) : VectorStats :=
  { total_chunks := store.length
    total_documents := (get_all_documents store).length
    collection_name := "qa_knowledge_base"
    documents := get_all_documents store }

/-! ## Query formatting (`VectorStore.query` and
`RAGService.format_context`) -/

/-- A chunk metadata dictionary as returned by the backend; only
`source_document` is read by the formatting code (`.get('source_document',
'unknown')`). -/
structure ChunkMeta where
  source_document : Option String
deriving Repr, DecidableEq, Inhabited

/-- The raw nested result of `collection.query` for a single query
embedding: parallel lists indexed as `results[field][0][i]`.  Distances are
embedded as rationals. -/
structure RawQueryResult where
  ids : List (List String)
  documents : List (List String)
  metadatas : List (List ChunkMeta)
  distances : List (List ℚ)
deriving Repr, DecidableEq

/-- A formatted retrieval match: `{text, metadata, score, source_document}`
with `score = 1 - distance`. -/
structure RetrievedMatch where
  text : String
  metadata : ChunkMeta
  score : ℚ
  source_document : String
deriving Repr, DecidableEq, Inhabited

/-- The result-formatting loop of `VectorStore.query`: when the backend
returned a non-empty ID list, each index yields a match whose score is
`1 - distances[0][i]`, unclamped. -/
def formatQueryResults (r : RawQueryResult) : List RetrievedMatch :=
  match r.ids with
  | [] => []
  | ids0 :: _ =>
    if ids0.length > 0 then
      (List.range ids0.length).map (fun i =>
        { text := (r.documents.getD 0 []).getD i ""
          metadata := (r.metadatas.getD 0 []).getD i ⟨none⟩
          score := 1 - (r.distances.getD 0 []).getD i 0
          source_document :=
            (((r.metadatas.getD 0 []).getD i ⟨none⟩).source_document).getD
              "unknown" })
    else []

/-- Round-half-to-even of a rational, as used by Python's fixed-point float
formatting. -/
def rheInt (q : ℚ) : ℤ :=
  let f := ⌊q⌋
  let r := q - f
  if r < 1 / 2 then f
  else if 1 / 2 < r then f + 1
  else if f % 2 = 0 then f else f + 1

/-- Two zero-padded decimal digits. -/
def pad2 (n : Nat) : String :=
  (if n < 10 then "0" else "") ++ toString n

/-- Model of Python's `f"{score:.2f}"` on the embedded rational score. -/
def fmt2 (q : ℚ) : String :=
  let n := rheInt (q * 100)
  (if q < 0 then "-" else "") ++
    toString (n.natAbs / 100) ++ "." ++ pad2 (n.natAbs % 100)

/-- Embedding of `RAGService.format_context`: an empty retrieval set yields
the sentinel string, otherwise one attributed block per match joined with
newlines. -/
def format_context (chunks : List RetrievedMatch) : String :=
  if chunks.isEmpty then "No relevant documentation found."
  else
    pyJoin "\n" (chunks.map (fun c =>
      "=== From " ++ c.source_document ++ " (relevance: " ++ fmt2 c.score ++
        ") ===\n" ++ c.text ++ "\n"))

/-! ## JSON values and Python `json.loads`

`TestCaseAgent._extract_json_from_response` feeds candidate substrings to
`json.loads`.  JSON values are embedded as an inductive type; the parser
below models `json.loads` (strict mode: raw control characters inside
strings are rejected; object keys follow dict semantics, later duplicates
overwriting earlier ones in place).  JSON numbers are modelled as integers;
no claim exercises fractional number literals. -/

/-- A parsed JSON value. -/
inductive Json where
  | null : Json
  | bool : Bool → Json
  | num : Int → Json
  | str : String → Json
  | arr : List Json → Json
  | obj : List (String × Json) → Json
deriving Inhabited

/-- Rendering of a JSON value, for readability of concrete examples. -/
def Json.render : Json → String
  | .null => "null"
  | .bool b => toString b
  | .num n => toString n
  | .str s => "\"" ++ s ++ "\""
  | .arr l => "[" ++ pyJoin ", " (l.attach.map (fun j => j.1.render)) ++ "]"
  | .obj f =>
    "obj(" ++
      pyJoin ", " (f.attach.map (fun p => p.1.1 ++ ": " ++ p.1.2.render)) ++
      ")"
termination_by j => sizeOf j
decreasing_by
  · have := List.sizeOf_lt_of_mem j.2
    simp only [Json.arr.sizeOf_spec]
    omega
  · have h := List.sizeOf_lt_of_mem p.2
    rcases p with ⟨⟨k, v⟩, hm⟩
    simp only [Prod.mk.sizeOf_spec] at h
    simp only [Json.obj.sizeOf_spec]
    omega

instance : ToString Json := ⟨Json.render⟩

/-- The opening brace character, `U+007B`. -/
def lbrace : Char := Char.ofNat 0x7b

/-- The closing brace character, `U+007D`. -/
def rbrace : Char := Char.ofNat 0x7d

/-- JSON insignificant whitespace (`json.loads` skips exactly these). -/
def isJsonWs (c : Char) : Bool :=
  c = ' ' || c = '\t' || c = '\n' || c = '\r'

/-- Value of a hexadecimal digit. -/
def hexVal (c : Char) : Option Nat :=
  if '0' ≤ c && c ≤ '9' then some (c.toNat - 48)
  else if 'a' ≤ c && c ≤ 'f' then some (c.toNat - 87)
  else if 'A' ≤ c && c ≤ 'F' then some (c.toNat - 55)
  else none

/-- JSON string-body parser (the opening quote already consumed):
handles the escape sequences of `json.loads` and rejects raw control
characters, returning the decoded string and the rest of the input. -/
def parseJStrAux (acc : List Char) : List Char → Option (String × List Char)
  | [] => none
  | c :: rest =>
    if c = '"' then some (⟨acc.reverse⟩, rest)
    else if c = '\\' then
      match rest with
      | [] => none
      | e :: rest2 =>
        if e = '"' then parseJStrAux ('"' :: acc) rest2
        else if e = '\\' then parseJStrAux ('\\' :: acc) rest2
        else if e = '/' then parseJStrAux ('/' :: acc) rest2
        else if e = 'b' then parseJStrAux (Char.ofNat 8 :: acc) rest2
        else if e = 'f' then parseJStrAux (Char.ofNat 12 :: acc) rest2
        else if e = 'n' then parseJStrAux ('\n' :: acc) rest2
        else if e = 'r' then parseJStrAux ('\r' :: acc) rest2
        else if e = 't' then parseJStrAux ('\t' :: acc) rest2
        else if e = 'u' then
          match rest2 with
          | h1 :: h2 :: h3 :: h4 :: rest3 =>
            match hexVal h1, hexVal h2, hexVal h3, hexVal h4 with
            | some v1, some v2, some v3, some v4 =>
              parseJStrAux
                (Char.ofNat (4096 * v1 + 256 * v2 + 16 * v3 + v4) :: acc)
                rest3
            | _, _, _, _ => none
          | _ => none
        else none
    else if c.toNat < 0x20 then none
    else parseJStrAux (c :: acc) rest

/-- Decimal value of a digit run. -/
def digitsVal (l : List Char) : Nat :=
  l.foldl (fun a c => 10 * a + (c.toNat - 48)) 0

/-- JSON integer literal parser: optional minus sign, no leading zeros,
and no fractional or exponent part (unmodelled float literals fail). -/
def parseJInt (l : List Char) : Option (Int × List Char) :=
  let (neg, l1) := match l with
    | '-' :: t => (true, t)
    | _ => (false, l)
  let digits := l1.takeWhile Char.isDigit
  let rest := l1.dropWhile Char.isDigit
  if digits.isEmpty then none
  else if digits.length > 1 && digits.getD 0 '0' = '0' then none
  else
    match rest with
    | '.' :: _ => none
    | 'e' :: _ => none
    | 'E' :: _ => none
    | _ =>
      let v : Int := digitsVal digits
      some (if neg then -v else v, rest)

/-- Python dict insertion: an existing key has its value replaced in place,
a new key is appended. -/
def dictInsertField (fields : List (String × Json)) (kv : String × Json) :
    List (String × Json) :=
  if fields.any (fun p => p.1 = kv.1) then
    fields.map (fun p => if p.1 = kv.1 then kv else p)
  else fields ++ [kv]

/-- Collapse duplicate object keys with dict semantics (later wins). -/
def dedupFields (fields : List (String × Json)) : List (String × Json) :=
  fields.foldl dictInsertField []

mutual

/-- Fuel-indexed JSON value parser modelling `json.loads` grammar. -/
def parseJVal : Nat → List Char → Option (Json × List Char)
  | 0, _ => none
  | fuel + 1, l =>
    match l.dropWhile isJsonWs with
    | [] => none
    | c :: rest =>
      if c = '"' then
        (parseJStrAux [] rest).map (fun p => (Json.str p.1, p.2))
      else if c = '[' then
        match rest.dropWhile isJsonWs with
        | ']' :: rest2 => some (Json.arr [], rest2)
        | _ => (parseJItems fuel rest).map (fun p => (Json.arr p.1, p.2))
      else if c = lbrace then
        match rest.dropWhile isJsonWs with
        | r :: rest2 =>
          if r = rbrace then some (Json.obj [], rest2)
          else
            (parseJFields fuel rest).map
              (fun p => (Json.obj (dedupFields p.1), p.2))
        | [] => none
      else if c = 't' then
        if "rue".data.isPrefixOf rest then some (Json.bool true, rest.drop 3)
        else none
      else if c = 'f' then
        if "alse".data.isPrefixOf rest then
          some (Json.bool false, rest.drop 4)
        else none
      else if c = 'n' then
        if "ull".data.isPrefixOf rest then some (Json.null, rest.drop 3)
        else none
      else if c = '-' || c.isDigit then
        (parseJInt (c :: rest)).map (fun p => (Json.num p.1, p.2))
      else none

/-- Array items after the opening bracket (at least one item). -/
def parseJItems : Nat → List Char → Option (List Json × List Char)
  | 0, _ => none
  | fuel + 1, l => do
    let (v, rest) ← parseJVal fuel l
    match rest.dropWhile isJsonWs with
    | ']' :: rest2 => some ([v], rest2)
    | ',' :: rest2 => do
      let (vs, rest3) ← parseJItems fuel rest2
      some (v :: vs, rest3)
    | _ => none

/-- Object fields after the opening brace (at least one field). -/
def parseJFields : Nat → List Char → Option (List (String × Json) × List Char)
  | 0, _ => none
  | fuel + 1, l =>
    match l.dropWhile isJsonWs with
    | '"' :: rest => do
      let (k, rest1) ← parseJStrAux [] rest
      match rest1.dropWhile isJsonWs with
      | ':' :: rest2 => do
        let (v, rest3) ← parseJVal fuel rest2
        match rest3.dropWhile isJsonWs with
        | r :: rest4 =>
          if r = rbrace then some ([(k, v)], rest4)
          else if r = ',' then do
            let (fs, rest5) ← parseJFields fuel rest4
            some ((k, v) :: fs, rest5)
          else none
        | [] => none
      | _ => none
    | _ => none

end

/-- Model of Python `json.loads`: parse one JSON value and require only
whitespace to remain. -/
def json_loads (s : String) : Option Json :=
  match parseJVal (2 * s.length + 8) s.data with
  | some (v, rest) => if rest.dropWhile isJsonWs = [] then some v else none
  | none => none

/-! ## JSON extraction
(`TestCaseAgent._extract_json_from_response`)

The Python code tries `re.search(r'```json\s*(.*?)\s*```', text, DOTALL)`,
then `re.search(r'\[.*\]', text, DOTALL)`, then the raw reply, and feeds
the selected substring to `json.loads`; a decode error returns `None`, and
a dict result is wrapped into a one-element list.

For these two patterns the regex semantics reduce to substring search:
the lazy fenced pattern matches from the first occurrence of the opening
fence to the earliest following closing fence with the interior
whitespace-stripped, and the greedy array pattern matches from the first
opening bracket to the last closing bracket of the whole text provided the
bracket pair is ordered. -/

/-- First index at which `pat` occurs as a contiguous sublist of `l`. -/
def findSubIdx (pat : List Char) : List Char → Option Nat
  | [] => if pat.isEmpty then some 0 else none
  | c :: rest =>
    if pat.isPrefixOf (c :: rest) then some 0
    else (findSubIdx pat rest).map (· + 1)

/-- Last index at which character `c` occurs in `l`. -/
def lastIdxOf (c : Char) (l : List Char) : Option Nat :=
  (l.reverse.findIdx? (· = c)).map (fun j => l.length - 1 - j)

/-- The capture of `re.search(r'```json\s*(.*?)\s*```', text, DOTALL)`:
the text between the first "```json" and the earliest following "```",
stripped of surrounding whitespace. -/
def fencedJsonBlock (l : List Char) : Option (List Char) :=
  match findSubIdx "```json".data l with
  | none => none
  | some p =>
    let after := l.drop (p + 7)
    match findSubIdx "```".data after with
    | none => none
    | some q => some (stripWs (after.take q))

/-- The match of `re.search(r'\[.*\]', text, DOTALL)`: from the first `[`
to the last `]`, when ordered. -/
def arrayLikeSpan (l : List Char) : Option (List Char) :=
  match l.findIdx? (· = '['), lastIdxOf ']' l with
  | some p, some r =>
    if p < r then some ((l.drop p).take (r - p + 1)) else none
  | _, _ => none

/-- Strategy selection of `_extract_json_from_response`: fenced block
first, then bracket-delimited span, then the whole reply. -/
def selectJsonStr (l : List Char) : List Char :=
  match fencedJsonBlock l with
  | some s => s
  | none =>
    match arrayLikeSpan l with
    | some s => s
    | none => l

/-- Parsing of the selected substring: a JSON decode error yields `none`,
and a single JSON object (a Python dict) is promoted to a one-element
array. -/
def promoteParsed (s : String) : Option Json :=
  match json_loads s with
  | none => none
  | some (Json.obj o) => some (Json.arr [Json.obj o])
  | some v => some v

/-- Embedding of `TestCaseAgent._extract_json_from_response`: select a
candidate substring (fenced block, then bracket span, then the raw reply)
and parse it, promoting a single object to a one-element array. -/
def extract_json_from_response (text : String) : Option Json :=
  promoteParsed ⟨selectJsonStr text.data⟩

/-! ## The test-case agent (`backend/services/test_case_agent.py`)

`generate_test_cases` receives the model reply and the retrieved chunks
from `rag_service.rag_query` (both external inputs here), extracts the
JSON payload, post-processes each item (`test_id` generation and
`grounded_in` back-fill) and validates it into a `TestCase`.  The
`TestCase`/`TestCaseResponse` pydantic models live in `backend/models`,
which is not part of the sources; their validation is modelled from the
spec below. -/

/-- Python truthiness of a JSON-decoded value. -/
def jsonTruthy : Json → Bool
  | .null => false
  | .bool b => b
  | .num n => n ≠ 0
  | .str s => s ≠ ""
  | .arr l => !l.isEmpty
  | .obj f => !f.isEmpty

/-- Truthiness of `tc_data.get(key)`: a missing key or a falsy value. -/
def jsonFalsyOpt : Option Json → Bool
  | none => true
  | some v => !jsonTruthy v

/-- Python dict lookup on decoded JSON object fields. -/
def lookupField (fields : List (String × Json)) (k : String) : Option Json :=
  (fields.find? (fun p => p.1 = k)).map (fun p => p.2)

/-- Python dict assignment `tc_data[k] = v`. -/
def setField (fields : List (String × Json)) (k : String) (v : Json) :
    List (String × Json) :=
  dictInsertField fields (k, v)

/-- The source list built by `TestCaseAgent._infer_source_documents`: the
non-empty `source_document` values of the first three retrieved chunks,
deduplicated (a Python set) and sorted. -/
def backfillSources (chunks : List RetrievedMatch) : List String :=
  sortStrs ((chunks.take 3).filterMap (fun c =>
    if c.source_document = "" then none
    else some c.source_document)).dedup

/-- Embedding of `TestCaseAgent._infer_source_documents`: with no
retrieved chunks the fallback is "documentation"; otherwise the
`backfillSources` are comma-joined, falling back to "documentation" when
none remain. -/
def infer_source_documents (chunks : List RetrievedMatch) : String :=
  if chunks.isEmpty then "documentation"
  else
    let sources := backfillSources chunks
    if sources.isEmpty then "documentation" else pyJoin ", " sources

/-- Modelled from the spec: the `TestCase` pydantic model of
`backend/models` (absent from the sources).  The spec's Test Case shape is
`{testId, feature, scenario, type ∈ {positive, negative, edge_case},
preconditions, steps[ordered], expectedResult, groundedIn}`; validation
requires every field present with its declared type and drops failing
items.  No emptiness condition is imposed on `grounded_in` here: grounding
non-emptiness is established by the agent's back-fill, not assumed. -/
structure TestCase where
  test_id : String
  feature : String
  test_scenario : String
  test_type : String
  preconditions : String
  expected_result : String
  grounded_in : String
  test_steps : List String
deriving Repr, DecidableEq, Inhabited

/-- A JSON value read as a string field. -/
def asJStr : Json → Option String
  | .str s => some s
  | _ => none

/-- A JSON value read as a list of strings. -/
def asJStrList : Json → Option (List String)
  | .arr l => l.mapM asJStr
  | _ => none

/-- Modelled from the spec: `TestCase(**tc_data)` validation against the
Test Case shape (see `TestCase`); extra keys are ignored, a missing or
wrongly-typed field fails. -/
def validateTestCase (fields : List (String × Json)) : Option TestCase :=
  match (lookupField fields "test_id").bind asJStr,
      (lookupField fields "feature").bind asJStr,
      (lookupField fields "test_scenario").bind asJStr,
      (lookupField fields "test_type").bind asJStr,
      (lookupField fields "preconditions").bind asJStr,
      (lookupField fields "test_steps").bind asJStrList,
      (lookupField fields "expected_result").bind asJStr,
      (lookupField fields "grounded_in").bind asJStr with
  | some tid, some feat, some scen, some tty, some pre, some steps,
      some er, some gi =>
    if tty = "positive" || tty = "negative" || tty = "edge_case" then
      some ⟨tid, feat, scen, tty, pre, er, gi, steps⟩
    else none
  | _, _, _, _, _, _, _, _ => none

/-- The per-item body of the `generate_test_cases` loop: a missing
`test_id` receives `generate_test_id(i + 1)`, a missing-or-falsy
`grounded_in` is back-filled from `_infer_source_documents`, then the item
is validated; any failure (including a non-dict item, whose field accesses
raise and are caught by the per-item handler) skips the item. -/
def processItem (chunks : List RetrievedMatch) (i : Nat) (item : Json) :
    Option TestCase :=
  match item with
  | Json.obj fields =>
    let f1 :=
      if (lookupField fields "test_id").isNone then
        setField fields "test_id" (Json.str (generate_test_id (i + 1)))
      else fields
    let f2 :=
      if jsonFalsyOpt (lookupField f1 "grounded_in") then
        setField f1 "grounded_in" (Json.str (infer_source_documents chunks))
      else f1
    validateTestCase f2
  | _ => none

/-- Modelled from the spec: the `TestCaseResponse` shape of
`backend/models` — `{success, message, test_cases, total_cases}`. -/
structure TestCaseResponse where
  success : Bool
  message : String
  test_cases : List TestCase
  total_cases : Nat
deriving Repr, DecidableEq, Inhabited

/-- Embedding of `TestCaseAgent.generate_test_cases` downstream of the RAG
call: the model reply text and the retrieved chunks are the externally
produced inputs.  A failed or falsy extraction reports a parse failure; a
decoded string iterates over characters, every one of which fails item
validation; a decoded non-iterable raises a `TypeError` absorbed by the
outer handler into an error response.  The embedding is total: the
surrounding `try/except` means no exception escapes. -/
def generate_test_cases (responseText : String)
    (retrievedChunks : List RetrievedMatch) : TestCaseResponse :=
  match extract_json_from_response responseText with
  | none =>
    { success := false
      message := "Failed to parse test cases from LLM response"
      test_cases := [], total_cases := 0 }
  | some d =>
    if !jsonTruthy d then
      { success := false
        message := "Failed to parse test cases from LLM response"
        test_cases := [], total_cases := 0 }
    else
      match d with
      | Json.arr items =>
        let tcs := items.enum.filterMap (fun p =>
          processItem retrievedChunks p.1 p.2)
        if tcs.isEmpty then
          { success := false, message := "No valid test cases generated"
            test_cases := [], total_cases := 0 }
        else
          { success := true
            message := "Generated " ++ toString tcs.length ++ " test cases"
            test_cases := tcs, total_cases := tcs.length }
      | Json.str _ =>
        { success := false, message := "No valid test cases generated"
          test_cases := [], total_cases := 0 }
      | _ =>
        { success := false
          message := "Error generating test cases: object is not iterable"
          test_cases := [], total_cases := 0 }


/-! ## Concrete example inputs used by witnesses and scenarios -/

/-- A model reply wrapping a single JSON object (not an array) in a fenced
code block, with prose around it; the prose also contains a bracket pair,
so the fenced strategy must win. -/
def demoFencedReply : String :=
  "Here are the test cases [1]:\n```json\n\x7b \"test_id\": \"TC-001\", " ++
  "\"feature\": \"Discount code\", " ++
  "\"test_scenario\": \"Apply SAVE15 at checkout\", " ++
  "\"test_type\": \"positive\", \"preconditions\": \"Cart has items\", " ++
  "\"test_steps\": [\"Open cart\", \"Enter SAVE15\", \"Apply\"], " ++
  "\"expected_result\": \"15 percent discount applied\", " ++
  "\"grounded_in\": \"product_specs.md\" \x7d\n```\nEnjoy."

/-- The object fields decoded from `demoFencedReply`. -/
def demoFencedFields : List (String × Json) :=
  [("test_id", Json.str "TC-001"),
   ("feature", Json.str "Discount code"),
   ("test_scenario", Json.str "Apply SAVE15 at checkout"),
   ("test_type", Json.str "positive"),
   ("preconditions", Json.str "Cart has items"),
   ("test_steps", Json.arr
     [Json.str "Open cart", Json.str "Enter SAVE15", Json.str "Apply"]),
   ("expected_result", Json.str "15 percent discount applied"),
   ("grounded_in", Json.str "product_specs.md")]

/-- Retrieved matches over three source documents; the first three carry
`b.md` and `a.md`, the fourth (`c.md`) is beyond the top-3 window. -/
def demoChunks : List RetrievedMatch :=
  [⟨"chunk text one", ⟨some "b.md"⟩, 9 / 10, "b.md"⟩,
   ⟨"chunk text two", ⟨some "a.md"⟩, 4 / 5, "a.md"⟩,
   ⟨"chunk text three", ⟨some "b.md"⟩, 7 / 10, "b.md"⟩,
   ⟨"chunk four", ⟨some "c.md"⟩, 3 / 5, "c.md"⟩]

/-- A fenced reply with one test-case object that omits `grounded_in`. -/
def demoNoGroundingReply : String :=
  "```json\n[\x7b \"feature\": \"Discount\", " ++
  "\"test_scenario\": \"Apply SAVE15\", \"test_type\": \"positive\", " ++
  "\"preconditions\": \"cart\", \"test_steps\": [\"open\", \"apply\"], " ++
  "\"expected_result\": \"discount applied\" \x7d]\n```"

/-- The accepted test case produced from `demoNoGroundingReply` and
`demoChunks`: `test_id` generated, `grounded_in` back-filled from the
top-3 distinct sources, sorted and joined. -/
def demoGroundedTC : TestCase :=
  ⟨"TC-001", "Discount", "Apply SAVE15", "positive", "cart",
    "discount applied", "a.md, b.md", ["open", "apply"]⟩

/-- A model reply with no parseable JSON under any extraction strategy. -/
def demoUnparseableReply : String :=
  "I cannot generate test cases, sorry."

/-- A raw backend query result whose only distance exceeds 1, so the
converted score is negative. -/
def demoRawResult : RawQueryResult :=
  ⟨[["id1"]], [["some text"]], [[⟨some "a.md"⟩]], [[3 / 2]]⟩

/-- An empty-collection query result as returned by the backend: one empty
ID list for the single query embedding. -/
def demoEmptyRawResult : RawQueryResult :=
  ⟨[[]], [[]], [[]], [[]]⟩

/-- A small markdown document with a header and a bullet list. -/
def demoMarkdown : String :=
  "# Title\n\n- item one\n- item two"

/-- A string containing the control character `\x01` between spaces; the
input on which `clean_text` is not idempotent. -/
def demoCtrlString : String :=
  "a \x01 b"

/-- A stored chunk with source document `a.md`. -/
def demoChunkA : StoredChunk :=
  ⟨"chunk_0_aaaaaaaa", "alpha text", "a.md", 0, 1⟩

/-- A stored chunk with source document `b.md`. -/
def demoChunkB : StoredChunk :=
  ⟨"chunk_0_bbbbbbbb", "beta text", "b.md", 0, 1⟩

/-- A store holding 10001 chunks whose last chunk is the only one from
`b.md`; `get_all_documents` fetches only the first 10000. -/
def demoBigStore : List StoredChunk :=
  List.replicate 10000 demoChunkA ++ [demoChunkB]

/-- A store holding 50 chunks, for the clear-then-stats scenario. -/
def demoStore50 : List StoredChunk :=
  List.replicate 50 demoChunkA

/-- The sorted deduplicated source list over all stored chunks — the
claimed contract of `get_stats().documents`, for comparison with the
implementation's 10000-row fetch window. -/
def specDocumentsAll (store : List StoredChunk) : List String :=
  sortStrs (sourcesOf store).dedup

/-! ## Auxiliary notions for reasoning about the upsert store -/

/-- The last entry of a batch carrying a given ID, if any (the binding
that survives after upserting the whole batch). -/
def lastVal : List StoredChunk → String → Option StoredChunk
  | [], _ => none
  | c :: e, k =>
    match lastVal e k with
    | some r => some r
    | none => if c.id = k then some c else none

/-- The pointwise effect on a stored entry of upserting batch `e`. -/
def updFun (e : List StoredChunk) (x : StoredChunk) : StoredChunk :=
  match lastVal e x.id with
  | some c => c
  | none => x

/-- Presence of an ID among the entries of a store. -/
def HasId (s : List StoredChunk) (k : String) : Prop :=
  ∃ x ∈ s, x.id = k

/-- Absence of two adjacent whitespace characters, the shape invariant of
`collapseWs` output used to reason about normalization idempotence. -/
def NoAdjWs (a b : Char) : Prop :=
  ¬(isPySpace a = true ∧ isPySpace b = true)

/-! ## Theorems -/

/-- Auxiliary: `getD` of a mapped range evaluates the function. -/
theorem getD_map_range {α : Type} (f : Nat → α) (n i : Nat) (d : α)
    (h : i < n) : (((List.range n).map f).getD i d) = f i := by
  rw [List.getD_eq_getElem?_getD, List.getElem?_map, List.getElem?_range h]
  rfl

/-- C4: a model reply whose text yields no parseable JSON under any
extraction strategy makes `generate_test_cases` report `success = false`
with zero test cases; the embedding is total, so no exception reaches the
caller. -/
theorem unparseable_json_reports_failure
    (text : String) (chunks : List RetrievedMatch)
    (h : extract_json_from_response text = none) :
    (generate_test_cases text chunks).success = false ∧
    (generate_test_cases text chunks).test_cases = [] ∧
    (generate_test_cases text chunks).total_cases = 0 := by
  simp [generate_test_cases, h]

/-- Witness for C4: the concrete reply "I cannot generate test cases,
sorry." has no parseable JSON and yields the failure response. -/
theorem unparseable_json_reports_failure_witness :
    (generate_test_cases demoUnparseableReply []).success = false ∧
    (generate_test_cases demoUnparseableReply []).test_cases = [] ∧
    (generate_test_cases demoUnparseableReply []).total_cases = 0 :=
  unparseable_json_reports_failure demoUnparseableReply [] (by rfl)

/-- C5: a query against an empty collection (the backend returns one empty
ID list) formats to an empty match list, and formatting an empty retrieval
set yields the sentinel "No relevant documentation found." rather than an
empty string; both functions are total. -/
theorem empty_retrieval_graceful
    (r : RawQueryResult) (h : r.ids = [[]]) :
    formatQueryResults r = [] ∧
    format_context (formatQueryResults r) =
      "No relevant documentation found." := by
  have hres : formatQueryResults r = [] := by
    simp [formatQueryResults, h]
  exact ⟨hres, by rw [hres]; rfl⟩

/-- Witness for C5: the concrete empty-collection raw result. -/
theorem empty_retrieval_graceful_witness :
    formatQueryResults demoEmptyRawResult = [] ∧
    format_context (formatQueryResults demoEmptyRawResult) =
      "No relevant documentation found." :=
  empty_retrieval_graceful demoEmptyRawResult (by rfl)

/-- C6: every formatted match carries `score = 1 - distance` exactly as
reported by the backend, with no clamping. -/
theorem score_is_one_minus_distance
    (r : RawQueryResult) (ids0 : List String) (rest : List (List String))
    (i : Nat) (h : r.ids = ids0 :: rest) (hi : i < ids0.length) :
    ((formatQueryResults r).getD i default).score =
      1 - (r.distances.getD 0 []).getD i 0 := by
  have hres : formatQueryResults r =
      (List.range ids0.length).map (fun i =>
        { text := (r.documents.getD 0 []).getD i ""
          metadata := (r.metadatas.getD 0 []).getD i ⟨none⟩
          score := 1 - (r.distances.getD 0 []).getD i 0
          source_document :=
            (((r.metadatas.getD 0 []).getD i ⟨none⟩).source_document).getD
              "unknown" : RetrievedMatch }) := by
    simp [formatQueryResults, h, Nat.lt_of_le_of_lt (Nat.zero_le i) hi]
  rw [hres, getD_map_range _ _ _ _ hi]

/-- Witness for C6: a backend distance of `3/2` yields the negative score
`-1/2`, returned unchanged (no clamping). -/
theorem score_is_one_minus_distance_witness :
    ((formatQueryResults demoRawResult).getD 0 default).score =
      1 - (3 / 2 : ℚ) ∧
    ((formatQueryResults demoRawResult).getD 0 default).score < 0 := by
  have h := score_is_one_minus_distance demoRawResult ["id1"] [] 0
    (by rfl) (by decide)
  constructor
  · rw [h]; norm_num [demoRawResult]
  · rw [h]; norm_num [demoRawResult]

/-- C7: evaluating the markdown parser at a concrete document shows the
line structure does NOT survive: `clean_text` collapses every newline run
into a single space, so the header line and the two list-item lines of the
input are fused into one line in the output.  This contradicts the
parser's stated contract of preserving headers/lists/code fences as
structure for the downstream chunkers (which split on `"\n\n"` and
`"\n"` first). -/
theorem markdown_parse_collapses_line_structure :
    parse_markdown demoMarkdown = "# Title - item one - item two" ∧
    demoMarkdown.data.count '\n' = 3 ∧
    (parse_markdown demoMarkdown).data.count '\n' = 0 := by
  refine ⟨by rfl, by rfl, by rfl⟩

/-- C10: the chunk ID assigned by the `add_documents` preparation loop
depends only on the chunk text and the chunk's index within its own
document, never on the source document: the ID at index `i` is
`generate_chunk_id(chunks[i], i)`, so two documents with identical chunk
text at the same index receive the same ID. -/
theorem chunk_id_ignores_source_document :
    (∀ (f : String) (chunks : List String) (i : Nat),
      i < chunks.length →
      ((prepareDoc f chunks).map (fun c => c.id)).getD i "" =
        generate_chunk_id (chunks.getD i "") i) ∧
    (∀ (f₁ f₂ : String) (c₁ c₂ : List String) (i : Nat),
      i < c₁.length → i < c₂.length → c₁.getD i "" = c₂.getD i "" →
      ((prepareDoc f₁ c₁).map (fun c => c.id)).getD i "" =
        ((prepareDoc f₂ c₂).map (fun c => c.id)).getD i "") := by
  have key : ∀ (f : String) (chunks : List String) (i : Nat),
      i < chunks.length →
      ((prepareDoc f chunks).map (fun c => c.id)).getD i "" =
        generate_chunk_id (chunks.getD i "") i := by
    intro f chunks i hi
    have hmap : (prepareDoc f chunks).map (fun c => c.id) =
        chunks.enum.map (fun p => generate_chunk_id p.2 p.1) := by
      simp [prepareDoc, List.map_map]
    rw [hmap, List.getD_eq_getElem?_getD, List.getElem?_map,
      List.getElem?_enum, List.getElem?_eq_getElem hi]
    simp [List.getD_eq_getElem?_getD, List.getElem?_eq_getElem hi]
  refine ⟨key, ?_⟩
  intro f₁ f₂ c₁ c₂ i h₁ h₂ heq
  rw [key f₁ c₁ i h₁, key f₂ c₂ i h₂, heq]

set_option maxRecDepth 100000 in
/-- Witness for C10: two different documents whose chunk text at index 0
is "hello" receive the same chunk ID, concretely
`chunk_0_5d41402a` (the MD5 prefix of "hello"). -/
theorem chunk_id_ignores_source_document_witness :
    ((prepareDoc "a.md" ["hello", "extra"]).map (fun c => c.id)).getD 0 "" =
      ((prepareDoc "b.md" ["hello"]).map (fun c => c.id)).getD 0 "" ∧
    generate_chunk_id "hello" 0 = "chunk_0_5d41402a" :=
  ⟨chunk_id_ignores_source_document.2 "a.md" "b.md" ["hello", "extra"]
      ["hello"] 0 (by decide) (by decide) (by rfl),
    by rfl⟩

set_option maxRecDepth 100000 in
/-- C3: `_extract_json_from_response` tries, in order, the fenced JSON
block, a bracket-delimited array anywhere in the text, and the raw reply;
a single JSON object is promoted to a one-element array.  Concretely, a
reply wrapping a single JSON object in a fenced code block (with a bracket
pair elsewhere in the prose) extracts to a one-element list and yields one
accepted test case. -/
theorem extract_json_strategy_order :
    (∀ (text : String) (s : List Char),
      fencedJsonBlock text.data = some s →
      extract_json_from_response text = promoteParsed ⟨s⟩) ∧
    (∀ (text : String) (s : List Char),
      fencedJsonBlock text.data = none → arrayLikeSpan text.data = some s →
      extract_json_from_response text = promoteParsed ⟨s⟩) ∧
    (∀ text : String,
      fencedJsonBlock text.data = none → arrayLikeSpan text.data = none →
      extract_json_from_response text = promoteParsed text) ∧
    (∀ (s : String) (o : List (String × Json)),
      json_loads s = some (Json.obj o) →
      promoteParsed s = some (Json.arr [Json.obj o])) ∧
    extract_json_from_response demoFencedReply =
      some (Json.arr [Json.obj demoFencedFields]) ∧
    (generate_test_cases demoFencedReply demoChunks).success = true ∧
    (generate_test_cases demoFencedReply demoChunks).total_cases = 1 := by
  refine ⟨?_, ?_, ?_, ?_, by rfl, by rfl, by rfl⟩
  · intro text s h
    simp [extract_json_from_response, selectJsonStr, h]
  · intro text s h1 h2
    simp [extract_json_from_response, selectJsonStr, h1, h2]
  · intro text h1 h2
    simp [extract_json_from_response, selectJsonStr, h1, h2]
  · intro s o h
    simp [promoteParsed, h]

/-- Witness for C3: on a reply with no fence but a bracket span, the
array strategy fires and parses the span. -/
theorem extract_json_strategy_order_witness :
    extract_json_from_response "text [1, 2] more" = promoteParsed "[1, 2]" ∧
    extract_json_from_response "text [1, 2] more" =
      some (Json.arr [Json.num 1, Json.num 2]) :=
  ⟨extract_json_strategy_order.2.1 "text [1, 2] more" "[1, 2]".data
      (by rfl) (by rfl),
    by rfl⟩

/-! ### C1: grounding non-emptiness -/

theorem pyJoin_foldl_len (sep : String) (xs : List String) :
    ∀ acc : String,
      acc.length ≤ (xs.foldl (fun a s => a ++ sep ++ s) acc).length := by
  induction xs with
  | nil => intro acc; simp
  | cons s t ih =>
    intro acc
    refine le_trans ?_ (ih (acc ++ sep ++ s))
    simp [String.length_append]
    omega

theorem pyJoin_cons_ne_empty (sep x : String) (xs : List String)
    (hx : x ≠ "") : pyJoin sep (x :: xs) ≠ "" := by
  intro h
  have hlen := pyJoin_foldl_len sep xs x
  have hpj : pyJoin sep (x :: xs) = xs.foldl (fun a s => a ++ sep ++ s) x :=
    rfl
  rw [← hpj, h] at hlen
  have hzero : ("" : String).length = 0 := rfl
  rw [hzero] at hlen
  have hx0 : x.data.length = 0 := Nat.le_zero.mp hlen
  apply hx
  cases x with
  | mk data =>
    cases data with
    | nil => rfl
    | cons c t => simp at hx0

theorem mem_backfillSources (chunks : List RetrievedMatch) (s : String)
    (hs : s ∈ backfillSources chunks) :
    s ≠ "" ∧ s ∈ chunks.map (fun c => c.source_document) := by
  unfold backfillSources at hs
  rw [sortStrs, List.mem_insertionSort, List.mem_dedup,
    List.mem_filterMap] at hs
  obtain ⟨c, hc, heq⟩ := hs
  by_cases h : c.source_document = ""
  · simp [h] at heq
  · simp only [h, if_false] at heq
    cases heq
    exact ⟨h, List.mem_map_of_mem _ (List.mem_of_mem_take hc)⟩

theorem infer_source_documents_ne_empty (chunks : List RetrievedMatch) :
    infer_source_documents chunks ≠ "" := by
  unfold infer_source_documents
  split
  · decide
  · cases hbs : backfillSources chunks with
    | nil => simp [hbs]
    | cons x xs =>
      simp only [hbs, List.isEmpty_cons, if_false, Bool.false_eq_true]
      apply pyJoin_cons_ne_empty
      exact (mem_backfillSources chunks x
        (hbs ▸ List.mem_cons_self x xs)).1

theorem lookup_mapReplace (k : String) (v : Json) :
    ∀ t : List (String × Json), t.any (fun p => p.1 = k) = true →
      lookupField (t.map (fun p => if p.1 = k then (k, v) else p)) k =
        some v := by
  intro t
  induction t with
  | nil => intro h; simp at h
  | cons p t ih =>
    intro h
    by_cases hp : p.1 = k
    · simp [lookupField, List.find?, hp]
    · simp only [List.any_cons, Bool.or_eq_true, decide_eq_true_eq] at h
      rcases h with h | h
      · exact absurd h hp
      · simpa [lookupField, List.find?, hp] using ih (by simpa using h)

theorem lookup_append_single (k : String) (v : Json) :
    ∀ t : List (String × Json), t.any (fun p => p.1 = k) = false →
      lookupField (t ++ [(k, v)]) k = some v := by
  intro t
  induction t with
  | nil => intro h; simp [lookupField, List.find?]
  | cons p t ih =>
    intro h
    simp only [List.any_cons, Bool.or_eq_false_iff, decide_eq_false_iff_not]
      at h
    simpa [lookupField, List.find?, h.1] using ih h.2

theorem lookupField_setField_self (fields : List (String × Json))
    (k : String) (v : Json) :
    lookupField (setField fields k v) k = some v := by
  unfold setField dictInsertField
  split
  · next h => exact lookup_mapReplace k v fields (by simpa using h)
  · next h =>
      exact lookup_append_single k v fields ((Bool.not_eq_true _) ▸ h)

theorem lookup_mapReplace_other (k k' : String) (v : Json) (hne : k' ≠ k) :
    ∀ t : List (String × Json),
      lookupField (t.map (fun p => if p.1 = k then (k, v) else p)) k' =
        lookupField t k' := by
  intro t
  induction t with
  | nil => simp [lookupField]
  | cons p t ih =>
    by_cases hp : p.1 = k
    · have hk' : ¬ p.1 = k' := by rw [hp]; exact fun h => hne h.symm
      simpa [lookupField, List.find?, hp, Ne.symm hne, hk'] using ih
    · rw [List.map_cons, if_neg hp]
      by_cases hp' : p.1 = k'
      · simp [lookupField, List.find?, hp']
      · simpa [lookupField, List.find?, hp'] using ih

theorem lookup_append_single_other (k k' : String) (v : Json)
    (hne : k' ≠ k) :
    ∀ t : List (String × Json),
      lookupField (t ++ [(k, v)]) k' = lookupField t k' := by
  intro t
  induction t with
  | nil => simp [lookupField, List.find?, Ne.symm hne]
  | cons p t ih =>
    by_cases hp : p.1 = k'
    · simp [lookupField, List.find?, hp]
    · simpa [lookupField, List.find?, hp] using ih

theorem lookupField_setField_other (fields : List (String × Json))
    (k k' : String) (v : Json) (hne : k' ≠ k) :
    lookupField (setField fields k v) k' = lookupField fields k' := by
  unfold setField dictInsertField
  split
  · exact lookup_mapReplace_other k k' v hne fields
  · exact lookup_append_single_other k k' v hne fields

theorem validate_grounded_lookup (fields : List (String × Json))
    (tc : TestCase) (h : validateTestCase fields = some tc) :
    lookupField fields "grounded_in" = some (Json.str tc.grounded_in) := by
  unfold validateTestCase at h
  cases h1 : (lookupField fields "test_id").bind asJStr with
  | none => rw [h1] at h; simp at h
  | some tid =>
  rw [h1] at h
  cases h2 : (lookupField fields "feature").bind asJStr with
  | none => rw [h2] at h; simp at h
  | some feat =>
  rw [h2] at h
  cases h3 : (lookupField fields "test_scenario").bind asJStr with
  | none => rw [h3] at h; simp at h
  | some scen =>
  rw [h3] at h
  cases h4 : (lookupField fields "test_type").bind asJStr with
  | none => rw [h4] at h; simp at h
  | some tty =>
  rw [h4] at h
  cases h5 : (lookupField fields "preconditions").bind asJStr with
  | none => rw [h5] at h; simp at h
  | some pre =>
  rw [h5] at h
  cases h6 : (lookupField fields "test_steps").bind asJStrList with
  | none => rw [h6] at h; simp at h
  | some steps =>
  rw [h6] at h
  cases h7 : (lookupField fields "expected_result").bind asJStr with
  | none => rw [h7] at h; simp at h
  | some er =>
  rw [h7] at h
  cases h8 : (lookupField fields "grounded_in").bind asJStr with
  | none => rw [h8] at h; simp at h
  | some gi =>
  rw [h8] at h
  simp only [] at h
  split at h
  · have htc : tc = ⟨tid, feat, scen, tty, pre, er, gi, steps⟩ := by
      cases h; rfl
    subst htc
    obtain ⟨v, hv, hasv⟩ := Option.bind_eq_some.mp h8
    cases v <;> simp [asJStr] at hasv
    subst hasv
    exact hv
  · simp at h

theorem processItem_grounded (chunks : List RetrievedMatch) (i : Nat)
    (item : Json) (tc : TestCase)
    (h : processItem chunks i item = some tc) : tc.grounded_in ≠ "" := by
  cases item with
  | obj fields =>
    simp only [processItem] at h
    by_cases hg : jsonFalsyOpt (lookupField
        (if (lookupField fields "test_id").isNone then
          setField fields "test_id" (Json.str (generate_test_id (i + 1)))
        else fields) "grounded_in") = true
    · rw [if_pos hg] at h
      have hlk := validate_grounded_lookup _ _ h
      rw [lookupField_setField_self] at hlk
      have hgi : infer_source_documents chunks = tc.grounded_in :=
        Json.str.inj (Option.some.inj hlk)
      rw [← hgi]
      exact infer_source_documents_ne_empty chunks
    · rw [if_neg hg] at h
      have hlk := validate_grounded_lookup _ _ h
      rw [hlk] at hg
      simp [jsonFalsyOpt, jsonTruthy] at hg
      exact hg
  | null => simp [processItem] at h
  | bool b => simp [processItem] at h
  | num n => simp [processItem] at h
  | str s => simp [processItem] at h
  | arr l => simp [processItem] at h

theorem test_case_grounding_part1 (text : String)
    (chunks : List RetrievedMatch) (tc : TestCase)
    (htc : tc ∈ (generate_test_cases text chunks).test_cases) :
    tc.grounded_in ≠ "" := by
  cases hex : extract_json_from_response text with
  | none => simp [generate_test_cases, hex] at htc
  | some d =>
    simp only [generate_test_cases, hex] at htc
    by_cases ht : jsonTruthy d = true
    · rw [ht] at htc
      simp only [Bool.not_true, Bool.false_eq_true, if_false] at htc
      cases d with
      | arr items =>
        simp only [] at htc
        split at htc
        · simp at htc
        · rw [List.mem_filterMap] at htc
          obtain ⟨p, hp, hproc⟩ := htc
          exact processItem_grounded chunks p.1 p.2 tc hproc
      | null => simp at htc
      | bool b => simp at htc
      | num n => simp at htc
      | str s => simp at htc
      | obj f => simp at htc
    · have ht' : jsonTruthy d = false := by
        cases hjt : jsonTruthy d
        · rfl
        · exact absurd hjt ht
      rw [ht'] at htc
      simp at htc

theorem test_case_backfill (chunks : List RetrievedMatch) (i : Nat)
    (fields : List (String × Json)) (tc : TestCase)
    (hmiss : jsonFalsyOpt (lookupField fields "grounded_in") = true)
    (h : processItem chunks i (Json.obj fields) = some tc) :
    tc.grounded_in = infer_source_documents chunks := by
  simp only [processItem] at h
  have hne : ("grounded_in" : String) ≠ "test_id" := by decide
  set f1 := (if (lookupField fields "test_id").isNone then
      setField fields "test_id" (Json.str (generate_test_id (i + 1)))
    else fields) with hf1
  have hlk1 : lookupField f1 "grounded_in" =
      lookupField fields "grounded_in" := by
    rw [hf1]
    split
    · exact lookupField_setField_other fields "test_id" "grounded_in" _ hne
    · rfl
  rw [if_pos (show jsonFalsyOpt (lookupField f1 "grounded_in") = true by
    rw [hlk1]; exact hmiss)] at h
  have hlk := validate_grounded_lookup _ _ h
  rw [lookupField_setField_self] at hlk
  exact (Json.str.inj (Option.some.inj hlk)).symm

theorem backfill_props (chunks : List RetrievedMatch) :
    (backfillSources chunks).Nodup ∧
    (backfillSources chunks).Sorted (· ≤ ·) ∧
    (backfillSources chunks).length ≤ 3 ∧
    (∀ s ∈ backfillSources chunks,
      s ≠ "" ∧ s ∈ chunks.map (fun c => c.source_document)) := by
  refine ⟨?_, ?_, ?_, fun s hs => mem_backfillSources chunks s hs⟩
  · unfold backfillSources sortStrs
    exact (@List.perm_insertionSort String (· ≤ ·) decStrLe _).nodup_iff.mpr
      (List.nodup_dedup _)
  · unfold backfillSources sortStrs
    exact @List.sorted_insertionSort String (· ≤ ·) decStrLe _ _ _
  · unfold backfillSources sortStrs
    calc (@List.insertionSort String (· ≤ ·) decStrLe _).length
        = _ := (@List.perm_insertionSort String (· ≤ ·) decStrLe _).length_eq
      _ ≤ _ := (List.dedup_sublist _).length_le
      _ ≤ (chunks.take 3).length := List.length_filterMap_le _ _
      _ ≤ 3 := List.length_take_le _ _

theorem infer_eq_join (chunks : List RetrievedMatch) (h1 : chunks ≠ [])
    (h2 : backfillSources chunks ≠ []) :
    infer_source_documents chunks = pyJoin ", " (backfillSources chunks) := by
  simp [infer_source_documents, List.isEmpty_iff, h1, h2]

/-- C1: every test case accepted by `generate_test_cases` has non-empty
`grounded_in`; an item whose `grounded_in` is missing or falsy is
back-filled with `_infer_source_documents`, whose source list is drawn
from the retrieved matches, deduplicated, sorted, at most three long, and
joined into a non-empty string. -/
theorem test_case_grounding_nonempty :
    (∀ (text : String) (chunks : List RetrievedMatch) (tc : TestCase),
      tc ∈ (generate_test_cases text chunks).test_cases →
      tc.grounded_in ≠ "") ∧
    (∀ (chunks : List RetrievedMatch) (i : Nat)
      (fields : List (String × Json)) (tc : TestCase),
      jsonFalsyOpt (lookupField fields "grounded_in") = true →
      processItem chunks i (Json.obj fields) = some tc →
      tc.grounded_in = infer_source_documents chunks) ∧
    (∀ chunks : List RetrievedMatch,
      (backfillSources chunks).Nodup ∧
      (backfillSources chunks).Sorted (· ≤ ·) ∧
      (backfillSources chunks).length ≤ 3 ∧
      (∀ s ∈ backfillSources chunks,
        s ≠ "" ∧ s ∈ chunks.map (fun c => c.source_document))) ∧
    (∀ chunks : List RetrievedMatch, chunks ≠ [] →
      backfillSources chunks ≠ [] →
      infer_source_documents chunks =
        pyJoin ", " (backfillSources chunks)) :=
  ⟨test_case_grounding_part1, test_case_backfill, backfill_props,
    infer_eq_join⟩


set_option maxRecDepth 400000 in
/-- Witness for C1: a concrete reply whose single item omits `grounded_in`
is accepted with the back-filled, deduplicated, sorted, comma-joined value
"a.md, b.md". -/
theorem test_case_grounding_nonempty_witness :
    demoGroundedTC ∈
      (generate_test_cases demoNoGroundingReply demoChunks).test_cases ∧
    demoGroundedTC.grounded_in ≠ "" ∧
    demoGroundedTC.grounded_in = "a.md, b.md" := by
  have hmem : demoGroundedTC ∈
      (generate_test_cases demoNoGroundingReply demoChunks).test_cases := by
    rw [show (generate_test_cases demoNoGroundingReply demoChunks).test_cases
      = [demoGroundedTC] from rfl]
    exact List.mem_singleton_self _
  exact ⟨hmem,
    test_case_grounding_nonempty.1 demoNoGroundingReply demoChunks
      demoGroundedTC hmem,
    by rfl⟩

/-! ### C2: deterministic chunk IDs and idempotent re-ingestion -/

theorem hasId_upsert_self (s : List StoredChunk) (c : StoredChunk) :
    HasId (upsertChunk s c) c.id := by
  unfold upsertChunk
  split
  · next h =>
    obtain ⟨x, hx, hxk⟩ := List.any_eq_true.mp h
    refine ⟨c, ?_, rfl⟩
    exact List.mem_map.mpr ⟨x, hx, by simp [of_decide_eq_true hxk]⟩
  · exact ⟨c, by simp, rfl⟩

theorem hasId_upsert_mono (s : List StoredChunk) (c : StoredChunk)
    (k : String) (h : HasId s k) : HasId (upsertChunk s c) k := by
  obtain ⟨x, hx, hk⟩ := h
  unfold upsertChunk
  split
  · by_cases hxc : x.id = c.id
    · exact ⟨c, List.mem_map.mpr ⟨x, hx, by simp [hxc]⟩, by rw [← hxc, hk]⟩
    · exact ⟨x, List.mem_map.mpr ⟨x, hx, by simp [hxc]⟩, hk⟩
  · exact ⟨x, List.mem_append_left _ hx, hk⟩

theorem hasId_addAll_mono (e : List StoredChunk) :
    ∀ (s : List StoredChunk) (k : String),
      HasId s k → HasId (collectionAdd s e) k := by
  induction e with
  | nil => intro s k h; exact h
  | cons c e ih => intro s k h; exact ih _ _ (hasId_upsert_mono s c k h)

theorem hasId_addAll_of_mem (e : List StoredChunk) :
    ∀ (s : List StoredChunk) (c : StoredChunk),
      c ∈ e → HasId (collectionAdd s e) c.id := by
  induction e with
  | nil => intro s c h; cases h
  | cons d e ih =>
    intro s c h
    rcases List.mem_cons.mp h with rfl | h
    · exact hasId_addAll_mono e _ _ (hasId_upsert_self s c)
    · exact ih _ c h

theorem upsert_eq_map (s : List StoredChunk) (c : StoredChunk)
    (h : HasId s c.id) :
    upsertChunk s c = s.map (fun x => if x.id = c.id then c else x) := by
  unfold upsertChunk
  obtain ⟨x, hx, hk⟩ := h
  rw [if_pos (List.any_eq_true.mpr ⟨x, hx, decide_eq_true hk⟩)]

theorem addAll_eq_map (e : List StoredChunk) :
    ∀ s : List StoredChunk, (∀ c ∈ e, HasId s c.id) →
      collectionAdd s e = s.map (updFun e) := by
  induction e with
  | nil =>
    intro s _
    calc collectionAdd s [] = s := rfl
      _ = s.map (fun x => x) := (List.map_id' s).symm
      _ = s.map (updFun []) :=
        List.map_congr_left (fun x _ => by simp [updFun, lastVal])
  | cons c e ih =>
    intro s h
    have hc : HasId s c.id := h c (by simp)
    have hpre : ∀ d ∈ e,
        HasId (s.map (fun x => if x.id = c.id then c else x)) d.id := by
      intro d hd
      obtain ⟨x, hx, hk⟩ := h d (List.mem_cons_of_mem _ hd)
      by_cases hxc : x.id = c.id
      · exact ⟨c, List.mem_map.mpr ⟨x, hx, by simp [hxc]⟩, by rw [← hxc, hk]⟩
      · exact ⟨x, List.mem_map.mpr ⟨x, hx, by simp [hxc]⟩, hk⟩
    have step : collectionAdd s (c :: e) =
        collectionAdd (upsertChunk s c) e := rfl
    rw [step, upsert_eq_map s c hc, ih _ hpre, List.map_map]
    apply List.map_congr_left
    intro x _
    by_cases hxc : x.id = c.id
    · cases hlv : lastVal e c.id with
      | some r => simp [updFun, lastVal, hxc, hlv, Function.comp]
      | none => simp [updFun, lastVal, hxc, hlv, Function.comp]
    · cases hlv : lastVal e x.id with
      | some r => simp [updFun, lastVal, hxc, hlv, Function.comp]
      | none =>
        have hcx : ¬ c.id = x.id := fun hh => hxc hh.symm
        simp [updFun, lastVal, hxc, hlv, hcx, Function.comp]

theorem mem_addAll (e : List StoredChunk) :
    ∀ (s : List StoredChunk) (c : StoredChunk), c ∈ collectionAdd s e →
      lastVal e c.id = some c ∨ (lastVal e c.id = none ∧ c ∈ s) := by
  induction e with
  | nil => intro s c h; exact Or.inr ⟨rfl, h⟩
  | cons d e ih =>
    intro s c h
    rcases ih (upsertChunk s d) c h with hsome | ⟨hnone, hmem⟩
    · left; simp [lastVal, hsome]
    · by_cases hdc : d.id = c.id
      · left
        have hcd : c = d := by
          unfold upsertChunk at hmem
          by_cases hany : (s.any fun x => x.id = d.id) = true
          · rw [if_pos hany] at hmem
            obtain ⟨x, hx, hxe⟩ := List.mem_map.mp hmem
            by_cases hxd : x.id = d.id
            · rw [if_pos hxd] at hxe; exact hxe.symm
            · rw [if_neg hxd] at hxe
              exact absurd (hxe ▸ hdc.symm) hxd
          · rw [if_neg hany] at hmem
            rcases List.mem_append.mp hmem with hs | hd1
            · exact absurd
                (List.any_eq_true.mpr
                  ⟨c, hs, decide_eq_true (hdc.symm : c.id = d.id)⟩) hany
            · simpa using hd1
        subst hcd
        simp [lastVal, hnone, hdc]
      · right
        refine ⟨by simp [lastVal, hnone, hdc], ?_⟩
        unfold upsertChunk at hmem
        by_cases hany : (s.any fun x => x.id = d.id) = true
        · rw [if_pos hany] at hmem
          obtain ⟨x, hx, hxe⟩ := List.mem_map.mp hmem
          by_cases hxd : x.id = d.id
          · rw [if_pos hxd] at hxe
            exact absurd (hxe ▸ rfl : d.id = c.id) hdc
          · rw [if_neg hxd] at hxe
            rwa [← hxe]
        · rw [if_neg hany] at hmem
          rcases List.mem_append.mp hmem with hs | hd1
          · exact hs
          · have hcd : c = d := by simpa using hd1
            exact absurd (hcd ▸ rfl : d.id = c.id).symm
              (fun hh => hdc hh.symm)

theorem addAll_idem (s e : List StoredChunk) :
    collectionAdd (collectionAdd s e) e = collectionAdd s e := by
  rw [addAll_eq_map e _ (fun c hc => hasId_addAll_of_mem e s c hc)]
  calc (collectionAdd s e).map (updFun e)
      = (collectionAdd s e).map (fun x => x) := by
        apply List.map_congr_left
        intro x hx
        rcases mem_addAll e s x hx with hsome | ⟨hnone, _⟩
        · simp [updFun, hsome]
        · simp [updFun, hnone]
    _ = collectionAdd s e := List.map_id' _

/-- C2: the chunk IDs prepared by `add_documents` are a deterministic
function of chunk text and position alone (`generate_chunk_id(chunk, i)`
applied along the enumeration), so re-ingesting identical content
reproduces identical IDs; and adding the same prepared batch a second
time, without a clear in between, leaves the upsert-modelled collection
unchanged — equal IDs overwrite, they do not create two distinct chunks
per chunk. -/
theorem reingest_identical_ids_upsert_idempotent :
    (∀ (filename : String) (chunks : List String),
      (prepareDoc filename chunks).map (fun c => c.id) =
        chunks.enum.map (fun p => generate_chunk_id p.2 p.1)) ∧
    (∀ (store : List StoredChunk) (docs : List (String × String))
      (split : String → List String),
      collectionAdd (collectionAdd store (prepareDocuments docs split))
          (prepareDocuments docs split) =
        collectionAdd store (prepareDocuments docs split)) := by
  constructor
  · intro filename chunks
    simp [prepareDoc, List.map_map]
  · intro store docs split
    exact addAll_idem store _

/-! ### C8: normalization idempotence -/

theorem head_dropWhile_false (p : Char → Bool) (l : List Char) (c : Char)
    (h : (l.dropWhile p).head? = some c) : p c = false := by
  induction l with
  | nil => simp [List.dropWhile] at h
  | cons d t ih =>
    rw [List.dropWhile_cons] at h
    split at h
    · exact ih h
    · cases h
      next hd => exact Bool.not_eq_true _ ▸ hd

theorem dropWhile_idem (p : Char → Bool) (l : List Char) :
    (l.dropWhile p).dropWhile p = l.dropWhile p := by
  cases h : l.dropWhile p with
  | nil => rfl
  | cons c t =>
    rw [List.dropWhile_cons,
      if_neg (by rw [head_dropWhile_false p l c (by rw [h]; rfl)]; simp)]

theorem collapseWs_mem (l : List Char) :
    ∀ (b : Bool), ∀ c ∈ collapseWs b l,
      c = ' ' ∨ (isPySpace c = false ∧ c ∈ l) := by
  induction l with
  | nil => intro b c hc; simp [collapseWs] at hc
  | cons d rest ih =>
    intro b c hc
    by_cases hd : isPySpace d = true
    · cases b with
      | true =>
        simp only [collapseWs, hd, if_pos] at hc
        rcases ih true c hc with h | ⟨h1, h2⟩
        · exact Or.inl h
        · exact Or.inr ⟨h1, List.mem_cons_of_mem _ h2⟩
      | false =>
        simp only [collapseWs, hd, if_pos] at hc
        rcases List.mem_cons.mp hc with rfl | hc'
        · exact Or.inl rfl
        · rcases ih true c hc' with h | ⟨h1, h2⟩
          · exact Or.inl h
          · exact Or.inr ⟨h1, List.mem_cons_of_mem _ h2⟩
    · have hd' : isPySpace d = false := Bool.not_eq_true _ ▸ hd
      simp only [collapseWs, hd', Bool.false_eq_true, if_neg,
        not_false_iff] at hc
      rcases List.mem_cons.mp hc with rfl | hc'
      · exact Or.inr ⟨hd', List.mem_cons_self _ _⟩
      · rcases ih false c hc' with h | ⟨h1, h2⟩
        · exact Or.inl h
        · exact Or.inr ⟨h1, List.mem_cons_of_mem _ h2⟩

theorem collapseWs_head_true (l : List Char) :
    ∀ c, (collapseWs true l).head? = some c → isPySpace c = false := by
  induction l with
  | nil => intro c hc; simp [collapseWs] at hc
  | cons d rest ih =>
    intro c hc
    by_cases hd : isPySpace d = true
    · simp only [collapseWs, hd, if_pos] at hc
      exact ih c hc
    · have hd' : isPySpace d = false := Bool.not_eq_true _ ▸ hd
      simp only [collapseWs, hd', Bool.false_eq_true, if_neg,
        not_false_iff, List.head?_cons] at hc
      cases hc
      exact hd'

theorem collapseWs_chain (l : List Char) :
    ∀ b : Bool, List.Chain' NoAdjWs (collapseWs b l) := by
  induction l with
  | nil => intro b; simp [collapseWs]
  | cons d rest ih =>
    intro b
    by_cases hd : isPySpace d = true
    · cases b with
      | true => simpa only [collapseWs, hd, if_pos] using ih true
      | false =>
        simp only [collapseWs, hd, if_true, Bool.false_eq_true, if_false]
        rw [List.chain'_cons']
        refine ⟨?_, ih true⟩
        intro y hy
        have := collapseWs_head_true rest y hy
        exact fun hcon => by rw [this] at hcon; exact absurd hcon.2 (by simp)
    · have hd' : isPySpace d = false := Bool.not_eq_true _ ▸ hd
      simp only [collapseWs, hd', Bool.false_eq_true, if_neg, not_false_iff]
      rw [List.chain'_cons']
      refine ⟨?_, ih false⟩
      intro y _
      exact fun hcon => by rw [hd'] at hcon; exact absurd hcon.1 (by simp)

theorem collapseWs_true_eq_false (l : List Char)
    (h : ∀ c, l.head? = some c → isPySpace c = false) :
    collapseWs true l = collapseWs false l := by
  cases l with
  | nil => rfl
  | cons d rest =>
    have hd := h d rfl
    simp only [collapseWs, hd, Bool.false_eq_true, if_neg, not_false_iff]

theorem collapseWs_id (l : List Char)
    (hsp : ∀ c ∈ l, isPySpace c = true → c = ' ')
    (hch : List.Chain' NoAdjWs l) : collapseWs false l = l := by
  induction l with
  | nil => rfl
  | cons d rest ih =>
    rw [List.chain'_cons'] at hch
    by_cases hd : isPySpace d = true
    · have hd' : d = ' ' := hsp d (List.mem_cons_self _ _) hd
      have hhead : ∀ c, rest.head? = some c → isPySpace c = false := by
        intro c hc
        have hr := hch.1 c hc
        cases hy : isPySpace c
        · rfl
        · exact absurd ⟨hd, hy⟩ hr
      simp only [collapseWs, hd, if_true, Bool.false_eq_true, if_false]
      rw [collapseWs_true_eq_false rest hhead,
        ih (fun c hc h => hsp c (List.mem_cons_of_mem _ hc) h) hch.2, hd']
    · have hd' : isPySpace d = false := Bool.not_eq_true _ ▸ hd
      simp only [collapseWs, hd', Bool.false_eq_true, if_neg, not_false_iff,
        List.cons.injEq, true_and]
      exact ih (fun c hc h => hsp c (List.mem_cons_of_mem _ hc) h) hch.2

theorem rtrimWs_idem (l : List Char) : rtrimWs (rtrimWs l) = rtrimWs l := by
  unfold rtrimWs
  rw [List.reverse_reverse, dropWhile_idem]

theorem ltrimWs_rtrim_head (m : List Char)
    (h : ∀ c, m.head? = some c → isPySpace c = false) :
    ltrimWs (rtrimWs m) = rtrimWs m := by
  cases m with
  | nil => rfl
  | cons c t =>
    have hc := h c rfl
    unfold rtrimWs ltrimWs
    rw [List.reverse_cons, List.dropWhile_append]
    split
    · next hemp =>
      have : (List.dropWhile isPySpace [c]) = [c] := by
        simp [List.dropWhile, hc]
      rw [this]
      simp [List.dropWhile, hc]
    · next hemp =>
      rw [List.reverse_append]
      simp only [List.reverse_cons, List.reverse_nil, List.nil_append,
        List.singleton_append, List.dropWhile_cons, hc, Bool.false_eq_true,
        if_false]

theorem stripWs_idem (l : List Char) : stripWs (stripWs l) = stripWs l := by
  unfold stripWs
  have hhead : ∀ c, (ltrimWs l).head? = some c → isPySpace c = false :=
    fun c hc => head_dropWhile_false isPySpace l c hc
  rw [show ltrimWs (rtrimWs (ltrimWs l)) = rtrimWs (ltrimWs l) from
    ltrimWs_rtrim_head (ltrimWs l) hhead, rtrimWs_idem]

theorem stripWs_subset (l : List Char) : ∀ c ∈ stripWs l, c ∈ l := by
  intro c hc
  unfold stripWs rtrimWs ltrimWs at hc
  rw [List.mem_reverse] at hc
  have h1 := (List.dropWhile_suffix isPySpace).subset hc
  rw [List.mem_reverse] at h1
  exact (List.dropWhile_suffix isPySpace).subset h1

theorem chain_flip (m : List Char) (h : List.Chain' NoAdjWs m) :
    List.Chain' (flip NoAdjWs) m :=
  h.imp (fun _ _ hab hcon => hab ⟨hcon.2, hcon.1⟩)

theorem stripWs_chain (l : List Char) (h : List.Chain' NoAdjWs l) :
    List.Chain' NoAdjWs (stripWs l) := by
  unfold stripWs rtrimWs ltrimWs
  have h1 : List.Chain' NoAdjWs (l.dropWhile isPySpace) :=
    h.suffix (List.dropWhile_suffix isPySpace)
  have h2 : List.Chain' NoAdjWs (l.dropWhile isPySpace).reverse :=
    List.chain'_reverse.mpr (chain_flip _ h1)
  have h3 : List.Chain' NoAdjWs
      ((l.dropWhile isPySpace).reverse.dropWhile isPySpace) :=
    h2.suffix (List.dropWhile_suffix isPySpace)
  exact List.chain'_reverse.mpr (chain_flip _ h3)

/-- C8 counterexample: `clean_text` is not idempotent.  On "a \x01 b" the
whitespace pass leaves the single spaces around the control character,
whose removal then creates a double space; the second application
collapses it. -/
theorem clean_text_not_idempotent :
    clean_text demoCtrlString = "a  b" ∧
    clean_text (clean_text demoCtrlString) = "a b" ∧
    clean_text (clean_text demoCtrlString) ≠ clean_text demoCtrlString :=
  ⟨by rfl, by rfl, by decide⟩

/-- C8 (amended): `clean_text` is idempotent on every input containing
none of the control characters its second substitution removes. -/
theorem clean_text_idempotent_on_ctrl_free (x : String)
    (hx : ∀ c ∈ x.data, isRemovedCtrl c = false) :
    clean_text (clean_text x) = clean_text x := by
  have hctrl : ∀ c ∈ collapseWs false x.data, (!isRemovedCtrl c) = true := by
    intro c hc
    rcases collapseWs_mem x.data false c hc with rfl | ⟨_, hmem⟩
    · decide
    · rw [hx c hmem]; rfl
  have h1 : removeCtrl (collapseWs false x.data) = collapseWs false x.data :=
    List.filter_eq_self.mpr hctrl
  have hm : (clean_text x).data = stripWs (collapseWs false x.data) := by
    unfold clean_text
    rw [h1]
  set m := stripWs (collapseWs false x.data) with hmdef
  have hmem_m : ∀ c ∈ m, c ∈ collapseWs false x.data :=
    fun c hc => stripWs_subset _ c hc
  have h2 : collapseWs false m = m := by
    apply collapseWs_id
    · intro c hc hspc
      rcases collapseWs_mem x.data false c (hmem_m c hc) with rfl | ⟨hf, _⟩
      · rfl
      · rw [hspc] at hf; cases hf
    · exact stripWs_chain _ (collapseWs_chain x.data false)
  have h3 : removeCtrl m = m := by
    apply List.filter_eq_self.mpr
    intro c hc
    rcases collapseWs_mem x.data false c (hmem_m c hc) with rfl | ⟨_, hmem⟩
    · decide
    · rw [hx c hmem]; rfl
  have h4 : stripWs m = m := by
    rw [hmdef, stripWs_idem]
  show clean_text (clean_text x) = clean_text x
  have hcx : clean_text x = ⟨m⟩ := by
    unfold clean_text
    rw [h1]
  rw [hcx]
  show (⟨stripWs (removeCtrl (collapseWs false m))⟩ : String) = ⟨m⟩
  rw [h2, h3, h4]

set_option maxRecDepth 100000 in
/-- Witness for C8 (amended): a control-free string with irregular
whitespace normalizes once and is untouched by a second pass. -/
theorem clean_text_idempotent_on_ctrl_free_witness :
    (∀ c ∈ ("  hello   world\n".data), isRemovedCtrl c = false) ∧
    clean_text (clean_text "  hello   world\n") =
      clean_text "  hello   world\n" ∧
    clean_text "  hello   world\n" = "hello world" :=
  ⟨by decide,
    clean_text_idempotent_on_ctrl_free "  hello   world\n" (by decide),
    by rfl⟩

/-! ### C9: stats over the stored collection -/

theorem sourcesOf_replicate_chunkA (n : Nat) :
    sourcesOf (List.replicate n demoChunkA) = List.replicate n "a.md" := by
  induction n with
  | zero => rfl
  | succ n ih =>
    rw [List.replicate_succ, List.replicate_succ]
    unfold sourcesOf at ih ⊢
    rw [List.filterMap_cons,
      show (if demoChunkA.source_document = "" then none
        else some demoChunkA.source_document) = some "a.md" from rfl, ih]

theorem dedup_replicate_str (s : String) (n : Nat) :
    (List.replicate (n + 1) s).dedup = [s] := by
  induction n with
  | zero => simp [List.dedup_cons_of_not_mem]
  | succ n ih =>
    rw [List.replicate_succ,
      List.dedup_cons_of_mem (by simp [List.mem_replicate])]
    exact ih

theorem dedup_replicate_append (n : Nat) :
    (List.replicate (n + 1) "a.md" ++ ["b.md"]).dedup = ["a.md", "b.md"] := by
  induction n with
  | zero =>
    rw [List.replicate_succ]
    simp [List.dedup_cons_of_not_mem]
  | succ n ih =>
    rw [List.replicate_succ, List.cons_append,
      List.dedup_cons_of_mem
        (List.mem_append_left _ (List.mem_replicate.mpr (by simp)))]
    exact ih

/-- C9 counterexample: on a collection of 10001 chunks whose only `b.md`
chunk is the 10001st, `get_stats().documents` reports just `["a.md"]`
because `get_all_documents` fetches only the first 10000 rows, while the
claimed contract (deduplicated sorted sources across ALL stored chunks)
would be `["a.md", "b.md"]`. -/
theorem get_stats_documents_limit_counterexample :
    (get_stats demoBigStore).documents = ["a.md"] ∧
    specDocumentsAll demoBigStore = ["a.md", "b.md"] ∧
    (get_stats demoBigStore).documents ≠ specDocumentsAll demoBigStore := by
  have hproj : ∀ store : List StoredChunk,
      (get_stats store).documents = get_all_documents store := fun _ => rfl
  have htake : demoBigStore.take 10000 = List.replicate 10000 demoChunkA :=
    List.take_left' (List.length_replicate 10000 demoChunkA)
  have hten : (10000 : Nat) = 9999 + 1 := rfl
  have hdocs : (get_stats demoBigStore).documents = ["a.md"] := by
    rw [hproj]
    unfold get_all_documents
    rw [htake, sourcesOf_replicate_chunkA, hten, dedup_replicate_str]
    rfl
  have hsplit : sourcesOf demoBigStore =
      sourcesOf (List.replicate 10000 demoChunkA) ++ sourcesOf [demoChunkB] := by
    unfold demoBigStore sourcesOf
    exact List.filterMap_append _ _ _
  have hspec : specDocumentsAll demoBigStore = ["a.md", "b.md"] := by
    unfold specDocumentsAll
    rw [hsplit, sourcesOf_replicate_chunkA,
      show sourcesOf [demoChunkB] = ["b.md"] from rfl, hten,
      dedup_replicate_append]
    rfl
  exact ⟨hdocs, hspec, by rw [hdocs, hspec]; decide⟩

/-- C9 (amended): `get_stats` reports `total_chunks` equal to the full
stored-chunk count, and `documents` equal to the deduplicated, sorted set
of non-empty `source_document` values across the FIRST 10000 stored chunks
(the `collection.get(limit=10000)` fetch window); when the collection
holds at most 10000 chunks this coincides with the claimed
all-chunks contract.  Clearing a collection (e.g. one with 50 chunks)
makes `get_stats` report zero chunks and an empty document list. -/
theorem get_stats_characterization :
    (∀ store : List StoredChunk,
      (get_stats store).total_chunks = store.length ∧
      (get_stats store).documents =
        sortStrs (sourcesOf (store.take 10000)).dedup ∧
      (get_stats store).documents.Nodup ∧
      (get_stats store).documents.Sorted (· ≤ ·) ∧
      (∀ s : String, s ∈ (get_stats store).documents ↔
        s ∈ sourcesOf (store.take 10000))) ∧
    (∀ store : List StoredChunk, store.length ≤ 10000 →
      (get_stats store).documents = specDocumentsAll store) ∧
    (∀ store : List StoredChunk, store.length = 50 →
      (get_stats (clear_collection store)).total_chunks = 0 ∧
      (get_stats (clear_collection store)).documents = []) := by
  refine ⟨fun store => ⟨rfl, rfl, ?_, ?_, ?_⟩, fun store h => ?_,
    fun store _ => ⟨rfl, rfl⟩⟩
  · show (get_all_documents store).Nodup
    unfold get_all_documents sortStrs
    exact (@List.perm_insertionSort String (· ≤ ·) decStrLe _).nodup_iff.mpr
      (List.nodup_dedup _)
  · show (get_all_documents store).Sorted (· ≤ ·)
    unfold get_all_documents sortStrs
    exact @List.sorted_insertionSort String (· ≤ ·) decStrLe _ _ _
  · intro s
    show s ∈ get_all_documents store ↔ _
    unfold get_all_documents sortStrs
    rw [List.mem_insertionSort, List.mem_dedup]
  · show get_all_documents store = specDocumentsAll store
    unfold get_all_documents specDocumentsAll
    rw [List.take_of_length_le h]

/-- Witness for C9 (amended): concrete clear-then-stats scenario on a
50-chunk store. -/
theorem get_stats_characterization_witness :
    (get_stats demoStore50).total_chunks = 50 ∧
    (get_stats (clear_collection demoStore50)).total_chunks = 0 ∧
    (get_stats (clear_collection demoStore50)).documents = [] :=
  ⟨by rw [(get_stats_characterization.1 demoStore50).1]; rfl,
    (get_stats_characterization.2.2 demoStore50 (by rfl)).1,
    (get_stats_characterization.2.2 demoStore50 (by rfl)).2⟩
